import Mathlib

/-!
Verification of the routing / context-tracking core of the edu-assistant
chatbot (`app/router/router.py`, `app/agents/base.py`, `app/main.py`).

Messages are modelled as Lean `String`s; Python's `str.lower()` is modelled
character-wise (ASCII letters plus the accented Spanish uppercase letters
that occur in this code base); Python's substring test `kw in msg` is
modelled by `containsSub` on character lists, and `len(msg.split())` by
`numTokens` (count of maximal non-whitespace runs).
-/

namespace EduAssistant

/-- Character-wise lowercasing as Python's `str.lower()` acts on the
alphabet used by this program: ASCII letters via `Char.toLower`, plus the
accented Spanish uppercase letters. -/
def pyLowerChar (c : Char) : Char :=
  if c = 'Á' then 'á'
  else if c = 'É' then 'é'
  else if c = 'Í' then 'í'
  else if c = 'Ó' then 'ó'
  else if c = 'Ú' then 'ú'
  else if c = 'Ñ' then 'ñ'
  else if c = 'Ü' then 'ü'
  else c.toLower

/-- `message.lower()` on the character list of a string. -/
def pyLower (s : List Char) : List Char := s.map pyLowerChar

/-- Boolean list-prefix test used to implement the substring test. -/
def isPrefOf : List Char → List Char → Bool
  | [], _ => true
  | _ :: _, [] => false
  | a :: as, b :: bs => a == b && isPrefOf as bs

/-- Python's substring containment `needle in hay` on character lists. -/
def containsSub (needle : List Char) : List Char → Bool
  | [] => needle.isEmpty
  | c :: rest => isPrefOf needle (c :: rest) || containsSub needle rest

/-- Number of whitespace-separated tokens, i.e. `len(s.split())` in Python:
counts maximal runs of non-whitespace characters. The Boolean argument
records whether we are currently inside a token. -/
def numTokensAux : List Char → Bool → Nat
  | [], _ => 0
  | c :: rest, inTok =>
    if c.isWhitespace then numTokensAux rest false
    else (if inTok then 0 else 1) + numTokensAux rest true

/-- `len(s.split())` for a character list. -/
def numTokens (s : List Char) : Nat := numTokensAux s false

/-- The three agent categories of `router.AgentType`. -/
inductive AgentType where
  | cursos
  | carreras
  | ventas
  deriving DecidableEq, Repr

/-- The Python string value of each `AgentType` member. -/
def AgentType.value : AgentType → String
  | .cursos => "cursos"
  | .carreras => "carreras"
  | .ventas => "ventas"

/-- Keyword/weight table for the sales agent (`Router.__init__`). -/
def ventasPatterns : List (String × Nat) :=
  [("comprar", 15), ("pagar", 15), ("costo", 15), ("precio", 15),
   ("inscribir", 15), ("inscripción", 15), ("matricular", 15),
   ("matrícula", 15), ("adquirir", 15), ("invertir", 15), ("oferta", 10),
   ("descuento", 10), ("promoción", 10)]

/-- Keyword/weight table for the courses agent (`Router.__init__`). -/
def cursosPatterns : List (String × Nat) :=
  [("curso", 5), ("cursos", 5), ("contenido", 5), ("tema", 5),
   ("material", 5), ("clase", 5), ("profesor", 5), ("enseñar", 5),
   ("aprender", 5), ("formación", 5)]

/-- Keyword/weight table for the careers agent (`Router.__init__`). -/
def carrerasPatterns : List (String × Nat) :=
  [("carrera", 10), ("profesión", 10), ("profesional", 10), ("camino", 10),
   ("ruta", 10), ("convertir", 10), ("convertirme", 10), ("ser", 8),
   ("trabajo", 8), ("laboral", 8), ("empleo", 8), ("futuro", 8),
   ("mercado", 8), ("perfil", 8), ("engineer", 10), ("developer", 10),
   ("scientist", 10), ("analyst", 10)]

/-- `self.patterns` indexed by category. -/
def patterns : AgentType → List (String × Nat)
  | .cursos => cursosPatterns
  | .carreras => carrerasPatterns
  | .ventas => ventasPatterns

/-- Sum of the weights of the table keywords occurring as substrings of the
(already lowercased) message: the base-score accumulation loop of
`Router.calculate_scores`. -/
def kwScore : List (String × Nat) → List Char → Nat
  | [], _ => 0
  | (k, w) :: rest, msg => (if containsSub k.data msg then w else 0) + kwScore rest msg

/-- A score vector over the three categories (`scores` dict). -/
structure Scores where
  cursos : Nat
  carreras : Nat
  ventas : Nat
  deriving DecidableEq, Repr

/-- Read one category's score. -/
def Scores.get (s : Scores) : AgentType → Nat
  | .cursos => s.cursos
  | .carreras => s.carreras
  | .ventas => s.ventas

/-- `scores[a] += n`. -/
def Scores.bump (s : Scores) (a : AgentType) (n : Nat) : Scores :=
  match a with
  | .cursos => { s with cursos := s.cursos + n }
  | .carreras => { s with carreras := s.carreras + n }
  | .ventas => { s with ventas := s.ventas + n }

/-- The affirmation substrings checked by `Router.calculate_scores`. -/
def affirmations : List String := ["si", "sí", "yes"]

/-- Whether the lowercased message contains one of the affirmations. -/
def hasAffirmation (msg : List Char) : Bool :=
  affirmations.any (fun k => containsSub k.data msg)

/-- `Router.calculate_scores(message)` with the router's `self.last_agent`
made an explicit argument. Follows the source step by step: lowercase,
keyword sums, +10 sales bonus on purchase intent, +15 short-message bonus
to the last agent, affirmative-response bonus (+25 to sales when the last
agent is sales, else +15 to the last agent), and the +15 course-mention
bonus to sales when sales is already positive. -/
def calculate_scores (message : String) (last_agent : Option AgentType) : Scores :=
  let msg := pyLower message.data
  let s0 : Scores :=
    { cursos := kwScore cursosPatterns msg
      carreras := kwScore carrerasPatterns msg
      ventas := kwScore ventasPatterns msg }
  let s1 := if 0 < s0.ventas then { s0 with ventas := s0.ventas + 10 } else s0
  let s2 :=
    if numTokens msg ≤ 2 then
      match last_agent with
      | some a => s1.bump a 15
      | none => s1
    else s1
  let s3 :=
    if hasAffirmation msg then
      match last_agent with
      | some .ventas => { s2 with ventas := s2.ventas + 25 }
      | some a => s2.bump a 15
      | none => s2
    else s2
  if containsSub "curso".data msg ∧ 0 < s3.ventas then
    { s3 with ventas := s3.ventas + 15 }
  else s3

/-- The maximum of the three scores (`max(scores.values())`). -/
def maxScore (s : Scores) : Nat := max s.cursos (max s.carreras s.ventas)

/-- `max(scores.items(), key=lambda x: x[1])[0]`: Python's `max` returns the
first maximal item in dict insertion order, which is the `AgentType`
declaration order cursos, carreras, ventas. -/
def selectAgent (s : Scores) : AgentType :=
  if s.carreras ≤ s.cursos ∧ s.ventas ≤ s.cursos then .cursos
  else if s.ventas ≤ s.carreras then .carreras
  else .ventas

/-- `Router.route(message)`: computes scores, picks the first maximal
category, and updates `self.last_agent` only when the winning score is
strictly positive. Returns (selected, scores, new last_agent). -/
def route (message : String) (last_agent : Option AgentType) :
    AgentType × Scores × Option AgentType :=
  let scores := calculate_scores message last_agent
  let selected := selectAgent scores
  (selected, scores,
    if 0 < maxScore scores then some selected else last_agent)

/-! ### Spec-side score definition (C1) -/

/-- Spec wording: +10 to Sales when Sales's keyword sum is strictly
positive. -/
def salesKwBonus (msg : List Char) : Nat :=
  if 0 < kwScore ventasPatterns msg then 10 else 0

/-- Spec wording: +15 to `lastCategory` when the message splits into at
most 2 whitespace tokens and `lastCategory` is set. -/
def shortBonus (msg : List Char) (last : Option AgentType) (a : AgentType) : Nat :=
  if numTokens msg ≤ 2 ∧ last = some a then 15 else 0

/-- Spec wording: on an affirmation substring, +25 to Sales when
`lastCategory` is Sales, else +15 to the set `lastCategory`. -/
def affirmBonus (msg : List Char) (last : Option AgentType) (a : AgentType) : Nat :=
  if hasAffirmation msg then
    if last = some .ventas then (if a = .ventas then 25 else 0)
    else if last = some a then 15
    else 0
  else 0

/-- The score vector as the spec describes it: for each category the sum of
the weights of its matching keywords, plus the purchase-intent, short-message
and affirmative bonuses as independent additive terms, and finally +15 more
to Sales when the message contains "curso" and Sales's score is strictly
positive at that point. -/
def spec_scores (message : String) (last : Option AgentType) : Scores :=
  let msg := pyLower message.data
  let total := fun a =>
    kwScore (patterns a) msg + (if a = .ventas then salesKwBonus msg else 0) +
      shortBonus msg last a + affirmBonus msg last a
  { cursos := total .cursos
    carreras := total .carreras
    ventas := total .ventas +
      (if containsSub "curso".data msg ∧ 0 < total .ventas then 15 else 0) }

set_option maxHeartbeats 1600000 in
/-- C1: for every message and every `last_agent`, `Router.calculate_scores`
returns, for each category, the sum of the weights of its table keywords
occurring as substrings of the lowercased message (no deduplication), plus
exactly the bonuses the spec lists, in order: +10 to Sales when its keyword
sum is positive, +15 to the last category on a short (≤ 2 token) message,
+25/+15 for an affirmation (additively with the short bonus), and +15 more
to Sales when the message contains "curso" and Sales is positive at that
point. -/
theorem calculate_scores_matches_spec (message : String) (last : Option AgentType) :
    calculate_scores message last = spec_scores message last := by
  rcases last with _ | a
  · simp only [calculate_scores, spec_scores, salesKwBonus, shortBonus, affirmBonus,
      Scores.bump, patterns]
    split_ifs <;> simp_all [Scores.mk.injEq]
  · cases a <;>
      simp only [calculate_scores, spec_scores, salesKwBonus, shortBonus, affirmBonus,
        Scores.bump, patterns] <;>
      split_ifs <;> simp_all [Scores.mk.injEq]

/-- `selectAgent` picks a maximal score, and prefers cursos over carreras
over ventas on ties (Python's `max` keeps the first maximal item in dict
insertion order). -/
theorem selectAgent_spec (s : Scores) :
    s.get (selectAgent s) = maxScore s ∧
    (s.cursos = maxScore s → selectAgent s = .cursos) ∧
    (selectAgent s = .carreras → s.cursos < s.carreras) ∧
    (selectAgent s = .ventas → s.cursos < s.ventas ∧ s.carreras < s.ventas) := by
  unfold selectAgent maxScore
  split_ifs <;> simp_all [Scores.get] <;> omega

/-- C2: `Router.route` returns the category with the maximum score, ties
broken by the fixed priority cursos > carreras > ventas (so Courses wins
any tie and is the fallback when all scores are 0), and the stored
`last_agent` becomes the winner exactly when the winning score is strictly
positive; when the maximum is 0 the stored `last_agent` is unchanged and
cursos is selected for the turn. -/
theorem route_max_priority_update (message : String) (last : Option AgentType) :
    (route message last).2.1.get (route message last).1 =
        maxScore (route message last).2.1 ∧
    ((route message last).2.1.cursos = maxScore (route message last).2.1 →
        (route message last).1 = AgentType.cursos) ∧
    ((route message last).1 = AgentType.carreras →
        (route message last).2.1.cursos < (route message last).2.1.carreras) ∧
    ((route message last).1 = AgentType.ventas →
        (route message last).2.1.cursos < (route message last).2.1.ventas ∧
        (route message last).2.1.carreras < (route message last).2.1.ventas) ∧
    (route message last).2.2 =
        (if 0 < maxScore (route message last).2.1
         then some (route message last).1 else last) ∧
    (maxScore (route message last).2.1 = 0 →
        (route message last).1 = AgentType.cursos ∧
        (route message last).2.2 = last) := by
  have h := selectAgent_spec (calculate_scores message last)
  unfold route
  dsimp only
  refine ⟨h.1, h.2.1, h.2.2.1, h.2.2.2, rfl, fun hz => ⟨?_, ?_⟩⟩
  · apply h.2.1
    have h1 : (calculate_scores message last).cursos ≤ maxScore (calculate_scores message last) := by
      unfold maxScore; omega
    omega
  · rw [hz]
    simp

/-! ### C3: keyword-free messages -/

/-- All keywords of all three tables. -/
def allKeywords : List String :=
  (ventasPatterns ++ cursosPatterns ++ carrerasPatterns).map Prod.fst

/-- The message contains no keyword from any category's table. -/
def mentionsNoKeyword (message : String) : Bool :=
  allKeywords.all (fun k => !containsSub k.data (pyLower message.data))

/-- If no keyword of the table occurs in the message, the keyword sum is 0. -/
theorem kwScore_eq_zero (pats : List (String × Nat)) (msg : List Char)
    (h : ∀ p ∈ pats, containsSub p.1.data msg = false) :
    kwScore pats msg = 0 := by
  induction pats with
  | nil => rfl
  | cons p rest ih =>
    have hp := h p (List.mem_cons_self p rest)
    have hrest := ih (fun q hq => h q (List.mem_cons_of_mem p hq))
    simp [kwScore, hp, hrest]

/-- C3 counterexample: "hola" contains no keyword from any table, yet with
`last_agent = carreras` the score vector is not all-zero (the short-message
bonus fires), carreras — not the default cursos — is selected. -/
theorem keyword_free_not_all_zero_cex :
    mentionsNoKeyword "hola" = true ∧
    calculate_scores "hola" (some AgentType.carreras) ≠ ⟨0, 0, 0⟩ ∧
    (route "hola" (some AgentType.carreras)).1 ≠ AgentType.cursos := by
  decide

/-- C3 amended: a keyword-free message yields the all-zero score vector,
the default category cursos, and an unchanged `last_agent`, provided the
message cannot trigger the context bonuses: either `last_agent` is unset,
or the message has more than 2 tokens and contains no affirmation
substring. -/
theorem keyword_free_routes_default (message : String) (last : Option AgentType)
    (hkw : mentionsNoKeyword message = true)
    (hbonus : last = none ∨ (2 < numTokens (pyLower message.data) ∧
        hasAffirmation (pyLower message.data) = false)) :
    calculate_scores message last = ⟨0, 0, 0⟩ ∧
    (route message last).1 = AgentType.cursos ∧
    (route message last).2.2 = last := by
  have hall : ∀ p ∈ ventasPatterns ++ cursosPatterns ++ carrerasPatterns,
      containsSub p.1.data (pyLower message.data) = false := by
    intro p hp
    have := List.all_eq_true.mp hkw p.1 (List.mem_map_of_mem Prod.fst hp)
    simpa using this
  have hv : kwScore ventasPatterns (pyLower message.data) = 0 :=
    kwScore_eq_zero _ _ (fun p hp => hall p (by simp [hp]))
  have hc : kwScore cursosPatterns (pyLower message.data) = 0 :=
    kwScore_eq_zero _ _ (fun p hp => hall p (by simp [hp]))
  have ha : kwScore carrerasPatterns (pyLower message.data) = 0 :=
    kwScore_eq_zero _ _ (fun p hp => hall p (by simp [hp]))
  have hscores : calculate_scores message last = ⟨0, 0, 0⟩ := by
    unfold calculate_scores
    rcases hbonus with hnone | ⟨hlen, haff⟩
    · subst hnone
      simp [hv, hc, ha]
    · have hlen' : ¬ numTokens (pyLower message.data) ≤ 2 := by omega
      rcases last with _ | a
      · simp [hv, hc, ha, hlen', haff]
      · cases a <;> simp [hv, hc, ha, hlen', haff]
  refine ⟨hscores, ?_, ?_⟩
  · unfold route selectAgent
    simp [hscores]
  · unfold route maxScore
    simp [hscores]

/-- C3 witness: the empty message with no prior category contains no
keyword, scores all-zero, routes to the default cursos, and leaves
`last_agent` unset. -/
theorem keyword_free_routes_default_witness :
    mentionsNoKeyword "" = true ∧
    (calculate_scores "" none = ⟨0, 0, 0⟩ ∧
      (route "" none).1 = AgentType.cursos ∧ (route "" none).2.2 = none) :=
  ⟨by decide, keyword_free_routes_default "" none (by decide) (Or.inl rfl)⟩

/-! ### C4: the "¿Cuánto cuesta el curso de SQL?" example -/

/-- C4 counterexample: on "¿Cuánto cuesta el curso de SQL?" with no prior
category, Sales does not reach 30 and is not selected (its score is 0: no
Sales keyword occurs in the message — "cuesta" is not in the table). -/
theorem sql_cost_example_cex :
    ¬ (30 ≤ (calculate_scores "¿Cuánto cuesta el curso de SQL?" none).ventas ∧
       (route "¿Cuánto cuesta el curso de SQL?" none).1 = AgentType.ventas) := by
  decide

/-- C4 amended: on "¿Cuánto cuesta el curso de SQL?" with no prior
category, the scores are cursos 5 (keyword "curso"), carreras 0, ventas 0,
and the selected category is cursos. -/
theorem sql_cost_example_scores :
    calculate_scores "¿Cuánto cuesta el curso de SQL?" none = ⟨5, 0, 0⟩ ∧
    (route "¿Cuánto cuesta el curso de SQL?" none).1 = AgentType.cursos := by
  decide

/-! ### C5: monotonicity of the keyword score -/

/-- A prefix of a list is still a prefix after appending on the right. -/
theorem isPrefOf_append (k l e : List Char) (h : isPrefOf k l = true) :
    isPrefOf k (l ++ e) = true := by
  induction k generalizing l with
  | nil => rfl
  | cons a as ih =>
    cases l with
    | nil => simp [isPrefOf] at h
    | cons b bs =>
      simp only [isPrefOf, Bool.and_eq_true] at h
      simp only [List.cons_append, isPrefOf, Bool.and_eq_true]
      exact ⟨h.1, ih bs h.2⟩

/-- The empty needle occurs in every haystack. -/
theorem containsSub_nil (hay : List Char) : containsSub [] hay = true := by
  cases hay with
  | nil => rfl
  | cons c rest => simp [containsSub, isPrefOf]

/-- Substring occurrence is preserved by appending on the right. -/
theorem containsSub_append (k l e : List Char) (h : containsSub k l = true) :
    containsSub k (l ++ e) = true := by
  induction l with
  | nil =>
    have : k = [] := by
      cases k with
      | nil => rfl
      | cons a as => simp [containsSub] at h
    subst this
    exact containsSub_nil e
  | cons c rest ih =>
    simp only [containsSub, Bool.or_eq_true] at h
    simp only [List.cons_append, containsSub, Bool.or_eq_true]
    rcases h with h | h
    · exact Or.inl (by simpa using isPrefOf_append k (c :: rest) e h)
    · exact Or.inr (ih h)

/-- The keyword sum never decreases when the message is extended on the
right. -/
theorem kwScore_append_le (pats : List (String × Nat)) (l e : List Char) :
    kwScore pats l ≤ kwScore pats (l ++ e) := by
  induction pats with
  | nil => exact Nat.le_refl 0
  | cons p rest ih =>
    simp only [kwScore]
    have : (if containsSub p.1.data l then p.2 else 0) ≤
        (if containsSub p.1.data (l ++ e) then p.2 else 0) := by
      by_cases h : containsSub p.1.data l = true
      · rw [if_pos h, if_pos (containsSub_append _ _ _ h)]
      · simp [h]
    omega

/-- The category's base score from its keyword table (step 3 of the scoring
algorithm, before any bonus). -/
def baseScore (a : AgentType) (message : String) : Nat :=
  kwScore (patterns a) (pyLower message.data)

/-- C5 counterexample: appending an occurrence of the cursos keyword
"curso" to the message "a b " (with `last_agent = cursos`) strictly
decreases the cursos score returned by `Router.calculate_scores`: the
extra token cancels the +15 short-message bonus while the keyword adds
only +5. -/
theorem keyword_extension_monotone_cex :
    ("curso", 5) ∈ cursosPatterns ∧
    (calculate_scores ("a b " ++ "curso") (some AgentType.cursos)).cursos <
      (calculate_scores "a b " (some AgentType.cursos)).cursos := by
  decide

/-- C5 amended: extending the message with any suffix — in particular an
additional occurrence of a table keyword — never decreases the category's
base keyword score (the bonus-free part of `Router.calculate_scores`); the
full score can decrease because added tokens can cancel the short-message
bonus. -/
theorem baseScore_extension_monotone (message ext : String) (a : AgentType) :
    baseScore a message ≤ baseScore a (message ++ ext) := by
  unfold baseScore
  have hdata : (message ++ ext).data = message.data ++ ext.data := rfl
  rw [hdata]
  unfold pyLower
  rw [List.map_append]
  exact kwScore_append_le (patterns a) _ _

/-! ### Context tracker (`BaseAgent.update_context`) -/

/-- The per-agent conversation context: `current_course` and
`mentioned_courses`. -/
structure Ctx where
  current : Option String
  mentioned : List String
  deriving DecidableEq, Repr

/-- The context of a freshly constructed agent. -/
def emptyCtx : Ctx := ⟨none, []⟩

/-- The alias table `course_keywords` of `BaseAgent.update_context`, in its
Python dict insertion order. -/
def courseAliases : List (String × String) :=
  [("Data Mining", "Data Mining y Análisis de Datos"),
   ("SQL", "Gestión de Bases de Datos con SQL"),
   ("Power BI", "Power BI para la Gestión de Datos (Grupo 1)")]

/-- The generic `reference_keywords` of `BaseAgent.update_context`. -/
def referenceKeywords : List String :=
  ["curso", "comprar", "pagar", "inscribirme", "matricularme", "ese", "este curso"]

/-- Mark a course as current and append it to `mentioned_courses` unless it
is already present. -/
def setCourse (ctx : Ctx) (course : String) : Ctx :=
  { current := some course
    mentioned :=
      if ctx.mentioned.contains course then ctx.mentioned
      else ctx.mentioned ++ [course] }

/-- Python truthiness of `self.current_course` (`None` and the empty string
are falsy). -/
def currentTruthy : Option String → Bool
  | none => false
  | some s => !s.isEmpty

/-- `BaseAgent.update_context(message)`, with the knowledge-base course
names an explicit argument (the table itself is external data loaded from a
spreadsheet). First full course name found in the message wins; else the
first alias-table key; else a generic reference word with a current course
set (or no rule at all) leaves the context unchanged. -/
def update_context (courses : List String) (ctx : Ctx) (message : String) : Ctx :=
  match courses.find? (fun c => containsSub (pyLower c.data) (pyLower message.data)) with
  | some c => setCourse ctx c
  | none =>
    match courseAliases.find?
        (fun kv => containsSub (pyLower kv.1.data) (pyLower message.data)) with
    | some kv => setCourse ctx kv.2
    | none =>
      if referenceKeywords.any (fun k => containsSub k.data (pyLower message.data))
          && currentTruthy ctx.current then ctx
      else ctx

/-- The three course names of the repository's knowledge table, as listed in
the course agent's own prompt text. -/
def threeCourses : List String :=
  ["Data Mining y Análisis de Datos", "Gestión de Bases de Datos con SQL",
   "Power BI para la Gestión de Datos (Grupo 1)"]

/-- C6: a message matching no full course name and no alias key, but
containing a generic reference word, leaves the context unchanged when a
current course is set. -/
theorem generic_reference_preserves_context (courses : List String) (ctx : Ctx)
    (message : String)
    (hcourse : ∀ c ∈ courses,
        containsSub (pyLower c.data) (pyLower message.data) = false)
    (halias : ∀ kv ∈ courseAliases,
        containsSub (pyLower kv.1.data) (pyLower message.data) = false)
    (href : referenceKeywords.any
        (fun k => containsSub k.data (pyLower message.data)) = true)
    (hcur : currentTruthy ctx.current = true) :
    update_context courses ctx message = ctx := by
  unfold update_context
  have h1 : courses.find?
      (fun c => containsSub (pyLower c.data) (pyLower message.data)) = none :=
    List.find?_eq_none.mpr (fun c hc => by simp [hcourse c hc])
  have h2 : courseAliases.find?
      (fun kv => containsSub (pyLower kv.1.data) (pyLower message.data)) = none :=
    List.find?_eq_none.mpr (fun kv hkv => by simp [halias kv hkv])
  rw [h1, h2]
  dsimp only
  split <;> rfl

/-- C6 witness: with `current_course = "Gestión de Bases de Datos con SQL"`
and the message "quiero comprar ese curso", the context is unchanged. -/
theorem generic_reference_preserves_context_witness :
    update_context threeCourses
      ⟨some "Gestión de Bases de Datos con SQL", ["Gestión de Bases de Datos con SQL"]⟩
      "quiero comprar ese curso" =
      ⟨some "Gestión de Bases de Datos con SQL", ["Gestión de Bases de Datos con SQL"]⟩ :=
  generic_reference_preserves_context threeCourses _ "quiero comprar ese curso"
    (by decide) (by decide) (by decide) (by decide)

/-! ### C7: the history back-scan window -/

/-- Apply `update_context` over a list of messages, oldest first. -/
def updateFold (courses : List String) (ctx : Ctx) (msgs : List String) : Ctx :=
  msgs.foldl (update_context courses) ctx

/-- Python's `history[-4:]`. -/
def last4 (l : List String) : List String := l.drop (l.length - 4)

/-- The context the spec claims the code derives: re-apply the update over
the last 4 history entries, then over the current message, starting from
scratch (a pure function of the trailing window). -/
def windowScan (courses : List String) (history : List String) (msg : String) : Ctx :=
  update_context courses (updateFold courses emptyCtx (last4 history)) msg

/-- The context from applying the update incrementally over the whole
transcript and then the current message. -/
def incrementalScan (courses : List String) (history : List String) (msg : String) : Ctx :=
  update_context courses (updateFold courses emptyCtx history) msg

/-- C7 counterexample: a course mentioned 5 turns back has left the 4-entry
window, so the window-derived context differs from the incremental context:
context is not a pure function of the last 4 history entries plus the
current message (the code only avoids this by starting its back-scan from
the stored mutable context). -/
theorem backscan_window_cex :
    windowScan threeCourses
        ["quiero el curso de SQL", "hola", "hola", "hola", "hola"] "hola" ≠
      incrementalScan threeCourses
        ["quiero el curso de SQL", "hola", "hola", "hola", "hola"] "hola" := by
  decide

/-- C7 amended: the window back-scan and the incremental derivation agree
whenever the history holds at most 4 entries (the window is then the whole
transcript); for longer histories they can differ, since the back-scan
window forgets older entries. -/
theorem backscan_eq_incremental_of_short (courses : List String)
    (history : List String) (msg : String) (h : history.length ≤ 4) :
    windowScan courses history msg = incrementalScan courses history msg := by
  unfold windowScan incrementalScan last4
  rw [Nat.sub_eq_zero_of_le h, List.drop_zero]

/-- C7 witness: a one-entry history is within the window, so both
derivations agree on it. -/
theorem backscan_eq_incremental_witness :
    (["hola"] : List String).length ≤ 4 ∧
    windowScan threeCourses ["hola"] "hola" =
      incrementalScan threeCourses ["hola"] "hola" :=
  ⟨by decide, backscan_eq_incremental_of_short threeCourses ["hola"] "hola" (by decide)⟩

/-! ### C10: the context update only grows the context -/

/-- C10: `update_context` never clears `current_course` (it either keeps it
or sets a course), and it only ever appends to `mentioned_courses`, and only
a course not already present: existing entries are never removed or
reordered. -/
theorem update_context_only_grows (courses : List String) (ctx : Ctx)
    (message : String) :
    ((update_context courses ctx message).current = ctx.current ∨
      ∃ c, (update_context courses ctx message).current = some c) ∧
    ((update_context courses ctx message).mentioned = ctx.mentioned ∨
      ∃ c, c ∉ ctx.mentioned ∧
        (update_context courses ctx message).mentioned = ctx.mentioned ++ [c]) := by
  unfold update_context
  cases h1 : courses.find?
      (fun c => containsSub (pyLower c.data) (pyLower message.data)) with
  | some c =>
    refine ⟨Or.inr ⟨c, rfl⟩, ?_⟩
    by_cases hm : c ∈ ctx.mentioned
    · exact Or.inl (by simp [setCourse, hm])
    · exact Or.inr ⟨c, hm, by simp [setCourse, hm]⟩
  | none =>
    cases h2 : courseAliases.find?
        (fun kv => containsSub (pyLower kv.1.data) (pyLower message.data)) with
    | some kv =>
      refine ⟨Or.inr ⟨kv.2, rfl⟩, ?_⟩
      by_cases hm : kv.2 ∈ ctx.mentioned
      · exact Or.inl (by simp [setCourse, hm])
      · exact Or.inr ⟨kv.2, hm, by simp [setCourse, hm]⟩
    | none =>
      dsimp only
      constructor
      · refine Or.inl ?_
        split <;> rfl
      · refine Or.inl ?_
        split <;> rfl

/-! ### Dispatcher (`BaseAgent.process_sync`, `Assistant.process_message`,
`Assistant.clear_history`) -/

/-- Per-agent mutable state: conversation context plus the conversation
history lines ("User: ..." / "Assistant: ..."). -/
structure AgentState where
  ctx : Ctx
  history : List String
  deriving DecidableEq, Repr

/-- The fixed apology returned by `BaseAgent.process_sync` when any step of
a turn raises. -/
def apologyMessage : String :=
  "Lo siento, hubo un error al procesar tu mensaje. Por favor, intenta de nuevo."

/-- Result of one `process_sync` call: response text, the agent state after
the call, and the error detail that went to the log (the side channel). -/
structure SyncResult where
  text : String
  finalState : AgentState
  errorLogged : Option String
  deriving DecidableEq, Repr

/-- The context after the back-scan over the last 4 history entries and the
current message, as computed at the start of `process_sync`. -/
def contextAfterMessage (courses : List String) (st : AgentState)
    (message : String) : Ctx :=
  update_context courses (updateFold courses st.ctx (last4 st.history)) message

/-- `BaseAgent.process_sync(message)`: the external generation call is an
explicit `Except` argument (its outcome). The context updates run before
the call; on success the response is returned and the user/assistant lines
are appended to the history; on a generation error the fixed apology is
returned, the already-updated context is kept, the history is not extended,
and the error detail is logged. -/
def process_sync (courses : List String) (st : AgentState) (message : String)
    (gen : Except String String) : SyncResult :=
  let ctx2 := contextAfterMessage courses st message
  match gen with
  | .ok text =>
      { text := text
        finalState :=
          { ctx := ctx2
            history := st.history ++ ["User: " ++ message, "Assistant: " ++ text] }
        errorLogged := none }
  | .error e =>
      { text := apologyMessage
        finalState := { ctx := ctx2, history := st.history }
        errorLogged := some e }

/-- Response dictionary of `Assistant.process_message`. -/
structure AssistantResult where
  text : String
  agent_type : String
  deriving DecidableEq, Repr

/-- One turn of `Assistant.process_message`: route the message, run the
selected agent's `process_sync`, and report its text together with the
selected category's label. Returns the result, the router's new
`last_agent`, and the per-agent states. -/
def assistantStep (courses : List String) (last : Option AgentType)
    (agents : AgentType → AgentState) (message : String)
    (gen : Except String String) :
    AssistantResult × Option AgentType × (AgentType → AgentState) :=
  let r := route message last
  let res := process_sync courses (agents r.1) message gen
  ({ text := res.text, agent_type := r.1.value },
    r.2.2,
    fun a => if a = r.1 then res.finalState else agents a)

/-- C8: when the external generation call fails with any error `e`, the
turn still returns the fixed apology text (never the raw exception), the
selected category's label is still reported, the error detail goes to the
log side channel, and the context updates already applied from the user's
message are retained while the history is left unchanged. -/
theorem generation_error_degrades_gracefully (courses : List String)
    (last : Option AgentType) (agents : AgentType → AgentState)
    (message e : String) :
    (assistantStep courses last agents message (.error e)).1.text =
        apologyMessage ∧
    (assistantStep courses last agents message (.error e)).1.agent_type =
        (route message last).1.value ∧
    (process_sync courses (agents (route message last).1) message
        (.error e)).errorLogged = some e ∧
    ((assistantStep courses last agents message (.error e)).2.2
        (route message last).1).ctx =
      contextAfterMessage courses (agents (route message last).1) message ∧
    ((assistantStep courses last agents message (.error e)).2.2
        (route message last).1).history =
      (agents (route message last).1).history := by
  refine ⟨rfl, rfl, rfl, ?_, ?_⟩ <;>
    simp [assistantStep, process_sync]

/-- The whole session state of `Assistant`: the router's `last_agent` and
the three agents' states. -/
structure AssistantState where
  routerLast : Option AgentType
  agents : AgentType → AgentState

/-- `Assistant.clear_history()`: calls `clear_history` on every agent
(emptying its history, `current_course` and `mentioned_courses`); the
router's `last_agent` is not touched. -/
def clear_history (s : AssistantState) : AssistantState :=
  { s with agents := fun _ => { ctx := emptyCtx, history := [] } }

/-- C9 counterexample: resetting a session whose router last routed to
ventas does not unset the router state: `last_agent` is still ventas after
`clear_history`. -/
theorem clear_keeps_router_state_cex :
    (clear_history
        { routerLast := some AgentType.ventas
          agents := fun _ => { ctx := emptyCtx, history := [] } }).routerLast ≠
      none := by
  intro h
  exact Option.noConfusion h

/-- C9 amended: the reset clears every agent's conversation history and
conversation context (`current_course` becomes `None`, `mentioned_courses`
becomes empty), but leaves the router's `last_agent` unchanged rather than
unsetting it. -/
theorem clear_clears_agents_not_router (s : AssistantState) (a : AgentType) :
    ((clear_history s).agents a).ctx.current = none ∧
    ((clear_history s).agents a).ctx.mentioned = [] ∧
    ((clear_history s).agents a).history = [] ∧
    (clear_history s).routerLast = s.routerLast :=
  ⟨rfl, rfl, rfl, rfl⟩

end EduAssistant
